import Mathlib

/-!
Verification of the eligibility and schedule-conflict engine of a course
management backend. The definitions below are shallow embeddings of the
functions in `src/utils/horario.util.js`, `src/services/elegibilidad.service.js`
and `src/services/seleccion.service.js`; external collaborators (mongoose
queries, `Types.ObjectId.isValid`) are passed in as function parameters.
Course identifiers are modelled as naturals, JS numbers that carry minute
counts as naturals/integers, and the decimal hour values as rationals with
JS `Math.round` modelled as floor of `x + 1/2`.
-/

namespace Tarea

/-! ### Time utilities (`src/utils/horario.util.js`) -/

/-- Week days accepted by the util (`DIAS`). -/
def DIAS : List String := ["LUN", "MAR", "MIE", "JUE", "VIE", "SAB"]

/-- Source `isDia`. -/
def isDia (d : String) : Bool := DIAS.contains d

/-- The regex `^([01]\d|2[0-3]):([0-5]\d)$` of `HHMM`, decided structurally. -/
def isHHMM (s : String) : Bool :=
  match s.data with
  | [h1, h2, c, m1, m2] =>
      (((h1 == '0' || h1 == '1') && h2.isDigit) ||
        (h1 == '2' && ('0' ≤ h2 && h2 ≤ '3'))) &&
      c == ':' && ('0' ≤ m1 && m1 ≤ '5') && m2.isDigit
  | _ => false

/-- Character-level `split(sep)`: the chunks of the list between occurrences
of `sep` (same chunks as JS `String.prototype.split` with a one-char
separator). -/
def chunksAt (sep : Char) : List Char → List Char → List (List Char)
  | [], acc => [acc.reverse]
  | c :: cs, acc =>
    if c = sep then acc.reverse :: chunksAt sep cs []
    else chunksAt sep cs (c :: acc)

/-- Decimal digit accumulator of `Number(...)` on an all-digit chunk. -/
def digitsVal : List Char → Nat → Option Nat
  | [], acc => some acc
  | c :: cs, acc =>
    if c.isDigit then digitsVal cs (acc * 10 + (c.toNat - '0'.toNat)) else none

/-- Model of `Number(chunk)` for the digit chunks `toMinutes` feeds it: a value
exactly when the chunk is non-empty and all digits. -/
def charsToNat : List Char → Option Nat
  | [] => none
  | l => digitsVal l 0

/-- Source `toMinutes`: split on ":" and compute `h*60 + m`. On strings that are not
of the form `a:b...` with numeric parts (where JS would yield `NaN`) the
model returns 0; every claim only applies it to `isHHMM`-valid strings. -/
def toMinutes (s : String) : Nat :=
  match chunksAt ':' s.data [] with
  | h :: m :: _ => (charsToNat h).getD 0 * 60 + (charsToNat m).getD 0
  | _ => 0

/-- Model of `String(n).padStart(2, "0")` for a decimal-printed natural. -/
def pad2 (n : Nat) : String :=
  if n < 10 then "0" ++ toString n else toString n

/-- Source `toHHMM`. -/
def toHHMM (mins : Nat) : String :=
  pad2 (mins / 60) ++ ":" ++ pad2 (mins % 60)

/-- Source `intervalsOverlap`: `Math.max(aInicio,bInicio) < Math.min(aFin,bFin)`. -/
def intervalsOverlap (aInicio aFin bInicio bFin : ℤ) : Bool :=
  decide (max aInicio bInicio < min aFin bFin)

/-- A schedule slot as built by `verificarSeleccion` before conflict
detection: `{ materia, codigo, nombre, dia, inicio, fin }`. -/
structure Slot where
  materia : Nat
  codigo : String
  nombre : String
  dia : String
  inicio : String
  fin : String
deriving DecidableEq, Repr

/-- The `a:`/`b:` descriptor stored inside a conflict record. -/
structure SlotRef where
  materia : Nat
  codigo : String
  nombre : String
  inicio : String
  fin : String
deriving DecidableEq, Repr

/-- A conflict record `{ dia, a, b, solapeMinutos, solape }`. -/
structure Conflict where
  dia : String
  a : SlotRef
  b : SlotRef
  solapeMinutos : Nat
  solape : String
deriving DecidableEq, Repr

/-- Projection of a slot to the descriptor stored in a conflict record. -/
def slotRef (s : Slot) : SlotRef :=
  { materia := s.materia, codigo := s.codigo, nombre := s.nombre,
    inicio := s.inicio, fin := s.fin }

/-- The record `findDayConflicts` pushes for an overlapping pair `A`, `B`. -/
def conflictOf (A B : Slot) : Conflict :=
  let a1 := toMinutes A.inicio
  let a2 := toMinutes A.fin
  let b1 := toMinutes B.inicio
  let b2 := toMinutes B.fin
  { dia := A.dia, a := slotRef A, b := slotRef B,
    solapeMinutos := min a2 b2 - max a1 b1,
    solape := toHHMM (max a1 b1) ++ "–" ++ toHHMM (min a2 b2) }

/-- The overlap test `findDayConflicts` applies to a pair of slots. -/
def overlapB (A B : Slot) : Bool :=
  intervalsOverlap (toMinutes A.inicio) (toMinutes A.fin)
    (toMinutes B.inicio) (toMinutes B.fin)

/-- Comparator key order of `sort((x,y) => toMinutes(x.inicio) - toMinutes(y.inicio))`. -/
def keyLE (x y : Slot) : Prop := toMinutes x.inicio ≤ toMinutes y.inicio

instance : DecidableRel keyLE :=
  fun x y => Nat.decLe (toMinutes x.inicio) (toMinutes y.inicio)

instance : IsTotal Slot keyLE := ⟨fun _ _ => Nat.le_total _ _⟩

instance : IsTrans Slot keyLE := ⟨fun _ _ _ h1 h2 => Nat.le_trans h1 h2⟩

/-- The stable ascending sort by start time (JS `Array.prototype.sort` is
stable, so any stable sort by the same key computes the same list). -/
def sortByStart (l : List Slot) : List Slot := List.insertionSort keyLE l

/-- Inner scan of `findDayConflicts` for a fixed `A` over the later slots,
with the early `break` once a non-overlapping `B` has `B.start ≥ A.end`. -/
def scanConflicts (A : Slot) : List Slot → List Conflict
  | [] => []
  | B :: rest =>
    if overlapB A B then conflictOf A B :: scanConflicts A rest
    else if toMinutes A.fin ≤ toMinutes B.inicio then []
    else scanConflicts A rest

/-- Outer loop of `findDayConflicts` over the sorted slots. -/
def conflictsFrom : List Slot → List Conflict
  | [] => []
  | A :: rest => scanConflicts A rest ++ conflictsFrom rest

/-- Source `findDayConflicts`. -/
def findDayConflicts (daySlots : List Slot) : List Conflict :=
  conflictsFrom (sortByStart daySlots)

/-- Reference version of the inner scan with no early termination: every
later slot is tested. -/
def scanAllPairs (A : Slot) (rest : List Slot) : List Conflict :=
  (rest.filter (fun B => overlapB A B)).map (fun B => conflictOf A B)

/-- Reference outer loop with no early termination. -/
def conflictsFromFull : List Slot → List Conflict
  | [] => []
  | A :: rest => scanAllPairs A rest ++ conflictsFromFull rest

/-- Reference `findDayConflicts` that tests every pair `i < j` of the
sorted slots: one record per unordered overlapping pair, none otherwise. -/
def findDayConflictsFull (daySlots : List Slot) : List Conflict :=
  conflictsFromFull (sortByStart daySlots)

/-- A schedule entry of a course document: `{ dia, inicio, fin }`. -/
structure Horario where
  dia : String
  inicio : String
  fin : String
deriving DecidableEq, Repr

/-- Raw minute total of `horasDesdeHorarios`'s reduce (JS subtraction, so the
accumulator is an integer). -/
def totalMins (horarios : List Horario) : ℤ :=
  horarios.foldl (fun acc h => acc + ((toMinutes h.fin : ℤ) - toMinutes h.inicio)) 0

/-- JS `Math.round`: the floor of `q + 1/2` (halves round toward `+∞`). -/
def jsRound (q : ℚ) : ℤ := ⌊q + 1/2⌋

/-- Source `horasDesdeHorarios`: `Math.round((totalMins / 60) * 100) / 100`. -/
def horasDesdeHorarios (horarios : List Horario) : ℚ :=
  (jsRound (((totalMins horarios : ℚ) / 60) * 100) : ℚ) / 100

/-! ### Eligibility service (`src/services/elegibilidad.service.js`) -/

/-- The `LEVEL` object: estado → achievement ordinal; `none` models a JS
property lookup miss for states outside the map. -/
def LEVEL (estado : String) : Option Nat :=
  if estado = "PENDIENTE" then some 0
  else if estado = "EN_CURSO" then some 1
  else if estado = "CURSADO" then some 2
  else if estado = "APROBADO" then some 3
  else none

/-- JS `estado || "PENDIENTE"`: `undefined`, `null` and `""` are falsy. -/
def orPendiente (estado : Option String) : String :=
  match estado with
  | none => "PENDIENTE"
  | some s => if s = "" then "PENDIENTE" else s

/-- The lookup `LEVEL[estadoPrev || "PENDIENTE"] ?? 0`. -/
def nivelDe (estado : Option String) : Nat :=
  (LEVEL (orPendiente estado)).getD 0

/-- Source `cumplePrevia`. -/
def cumplePrevia (previaTipo : String) (estadoPrev : Option String) : Bool :=
  let lvl := nivelDe estadoPrev
  if previaTipo = "CURSO" then decide (2 ≤ lvl)
  else if previaTipo = "EXAMEN" then decide (3 ≤ lvl)
  else false

/-- The enum of `HistorialSchema.estado` (the persisted history model). -/
def HistorialEstados : List String :=
  ["PENDIENTE", "EN_CURSO", "CURSADO", "A_EXAMEN", "APROBADO"]

/-- A prerequisite's `materia` field: either a raw id or a populated
`{ _id, codigo, nombre, semestre }` summary. -/
inductive PreviaMat where
  | raw (id : Nat)
  | pop (id : Nat) (codigo : String) (nombre : String) (semestre : Nat)
deriving DecidableEq, Repr

/-- The access `p.materia?._id || p.materia`: the id either way. -/
def PreviaMat.mid : PreviaMat → Nat
  | .raw i => i
  | .pop i _ _ _ => i

/-- The access `p.materia?.codigo || previaMateriaId`, the label of motivo text. -/
def PreviaMat.codigoLabel : PreviaMat → String
  | .raw i => toString i
  | .pop i c _ _ => if c = "" then toString i else c

/-- One entry of a course's `previas` array. -/
structure Previa where
  tipo : String
  materia : PreviaMat
deriving DecidableEq, Repr

/-- A course document as the services read it (`_id` modelled as `id`). -/
structure Materia where
  id : Nat
  codigo : String
  nombre : String
  semestre : Nat
  creditos : Nat
  previas : List Previa
  horarios : List Horario
deriving DecidableEq, Repr

/-- The `materia:` summary embedded in an evaluation result. -/
structure MateriaResumen where
  id : Nat
  codigo : String
  nombre : String
  semestre : Nat
  creditos : Nat
deriving DecidableEq, Repr

/-- One entry of `previasDetalladas`. -/
structure PreviaDetalle where
  tipo : String
  materia : PreviaMat
  cumplida : Bool
  estadoActual : String
deriving DecidableEq, Repr

/-- The per-course result of `evaluarMateria`. -/
structure EvalResult where
  materia : MateriaResumen
  estadoActual : String
  elegible : Bool
  motivos : List String
  previas : List PreviaDetalle
deriving DecidableEq, Repr

/-- The detail row the loop pushes for one previa. -/
def previaDetalle (mapE : Nat → Option String) (p : Previa) : PreviaDetalle :=
  let estadoPrev := orPendiente (mapE p.materia.mid)
  { tipo := p.tipo, materia := p.materia,
    cumplida := cumplePrevia p.tipo (some estadoPrev),
    estadoActual := estadoPrev }

/-- The motivos the loop pushes for one previa (none when it is satisfied;
an unknown tipo is unsatisfied but pushes no motivo). -/
def motivoDePrevia (mapE : Nat → Option String) (p : Previa) : List String :=
  let estadoPrev := orPendiente (mapE p.materia.mid)
  if cumplePrevia p.tipo (some estadoPrev) then []
  else
    (if p.tipo = "CURSO" then
      ["Falta CURSAR/APROBAR la previa: " ++ p.materia.codigoLabel] else []) ++
    (if p.tipo = "EXAMEN" then
      ["Falta APROBAR EXAMEN de la previa: " ++ p.materia.codigoLabel] else [])

/-- All motivos pushed by the previa loop, in loop order. -/
def motivosDePrevias (mapE : Nat → Option String) : List Previa → List String
  | [] => []
  | p :: ps => motivoDePrevia mapE p ++ motivosDePrevias mapE ps

/-- Source `evaluarMateria`. -/
def evaluarMateria (m : Materia) (mapE : Nat → Option String) : EvalResult :=
  let estadoEnMateria := orPendiente (mapE m.id)
  let motivos :=
    (if estadoEnMateria = "APROBADO" then ["La materia ya está APROBADA."] else []) ++
    motivosDePrevias mapE m.previas
  { materia := { id := m.id, codigo := m.codigo, nombre := m.nombre,
                 semestre := m.semestre, creditos := m.creditos },
    estadoActual := estadoEnMateria,
    elegible := motivos.length == 0,
    motivos := motivos,
    previas := m.previas.map (previaDetalle mapE) }

/-- The `resumen` of `calcularElegibilidad`. -/
structure ResumenEleg where
  totalMaterias : Nat
  elegibles : Nat
  noElegibles : Nat
deriving DecidableEq, Repr

/-- The value `calcularElegibilidad` resolves with. -/
structure ElegReport where
  resumen : ResumenEleg
  items : List EvalResult
deriving DecidableEq, Repr

/-- Source `calcularElegibilidad`. Here `isValidId` stands for `Types.ObjectId.isValid`,
`mapE` for the loaded historial map and `materias` for the result of the
`Materia.find` collaborator query (already filtered and sorted). -/
def calcularElegibilidad (isValidId : String → Bool) (usuarioId : String)
    (mapE : Nat → Option String) (materias : List Materia) :
    Except String ElegReport :=
  if !(isValidId usuarioId) then .error "usuarioId inválido"
  else
    let items := materias.map (fun m => evaluarMateria m mapE)
    .ok { resumen :=
            { totalMaterias := items.length,
              elegibles := (items.filter (fun i => i.elegible)).length,
              noElegibles := (items.filter (fun i => !i.elegible)).length },
          items := items }

/-! ### Selection service (`src/services/seleccion.service.js`) -/

/-- One row of the `materias` list of the selection report. -/
structure Detallada where
  materia : MateriaResumen
  estadoActual : String
  elegible : Bool
  motivos : List String
  previas : List PreviaDetalle
  horarios : List Horario
  cargaHorasMateria : ℚ
deriving DecidableEq, Repr

/-- The `resumen` of `verificarSeleccion`. -/
structure ResumenSel where
  seleccionadas : Nat
  elegibles : Nat
  noElegibles : Nat
  conflictos : Nat
  cargaHoras : ℚ
deriving DecidableEq, Repr

/-- The value `verificarSeleccion` resolves with. -/
structure SelReport where
  resumen : ResumenSel
  conflictos : List Conflict
  materias : List Detallada
deriving DecidableEq, Repr

/-- Loop of `[...new Set(l)]`: keep the first occurrence of each element,
in first-occurrence order (JS `Set` iterates in insertion order). -/
def setDedupGo : List String → List String → List String
  | [], _ => []
  | x :: xs, seen =>
    if x ∈ seen then setDedupGo xs seen else x :: setDedupGo xs (x :: seen)

/-- Model of `[...new Set(l)]`. -/
def setDedup (l : List String) : List String := setDedupGo l []

/-- The per-course evaluation row of `verificarSeleccion`. -/
def detalladaDe (mapE : Nat → Option String) (m : Materia) : Detallada :=
  let ev := evaluarMateria m mapE
  { materia := ev.materia, estadoActual := ev.estadoActual,
    elegible := ev.elegible, motivos := ev.motivos, previas := ev.previas,
    horarios := m.horarios, cargaHorasMateria := horasDesdeHorarios m.horarios }

/-- The tagged slots one detail row contributes to the day buckets. -/
def slotsOfDetallada (det : Detallada) : List Slot :=
  det.horarios.map (fun h =>
    { materia := det.materia.id, codigo := det.materia.codigo,
      nombre := det.materia.nombre, dia := h.dia, inicio := h.inicio, fin := h.fin })

/-- All tagged slots, in the push order of the bucket-building loop. -/
def allSlots : List Detallada → List Slot
  | [] => []
  | d :: ds => slotsOfDetallada d ++ allSlots ds

/-- The day keys of the bucket map, in first-insertion order. -/
def diasDe (slots : List Slot) : List String := setDedup (slots.map (fun s => s.dia))

/-- Running `findDayConflicts` over each day bucket, in bucket order: the bucket of a
day holds exactly the slots of that day, in push order. -/
def conflictosPorDia (slots : List Slot) : List String → List Conflict
  | [] => []
  | d :: ds =>
    findDayConflicts (slots.filter (fun s => s.dia == d)) ++ conflictosPorDia slots ds

/-- Source `verificarSeleccion`. Here `isValidId` stands for `Types.ObjectId.isValid`,
`fetchMaterias` for the `Materia.find({_id: {$in: ids}})` collaborator query
and `mapE` for the loaded historial map. -/
def verificarSeleccion (isValidId : String → Bool)
    (fetchMaterias : List String → List Materia) (mapE : Nat → Option String)
    (materiaIds : List String) (usuarioId : String) : Except String SelReport :=
  if materiaIds.isEmpty then .error "materiaIds requerido (array no vacío)"
  else if !(isValidId usuarioId) then .error "usuarioId inválido"
  else
    let ids := (setDedup materiaIds).filter isValidId
    if ids.isEmpty then .error "materiaIds inválidos"
    else
      let materias := fetchMaterias ids
      let detalladas := materias.map (detalladaDe mapE)
      let slots := allSlots detalladas
      let conflictos := conflictosPorDia slots (diasDe slots)
      let seleccionadas := detalladas.length
      let elegibles := (detalladas.filter (fun x => x.elegible)).length
      let noElegibles := seleccionadas - elegibles
      let cargaHoras :=
        (jsRound ((detalladas.foldl (fun acc x => acc + x.cargaHorasMateria) 0) * 100) : ℚ) / 100
      .ok { resumen :=
              { seleccionadas := seleccionadas, elegibles := elegibles,
                noElegibles := noElegibles, conflictos := conflictos.length,
                cargaHoras := cargaHoras },
            conflictos := conflictos,
            materias := detalladas }

/-! ### Concrete instances used in counterexamples and witnesses -/

/-- The course used in the C1 counterexample: no previas at all. -/
def mC1 : Materia :=
  { id := 1, codigo := "M1", nombre := "Materia Uno", semestre := 1,
    creditos := 10, previas := [], horarios := [] }

/-- History map of the C1 counterexample: the course itself is APROBADO. -/
def mapC1 : Nat → Option String := fun n => if n = 1 then some "APROBADO" else none

/-- Example slot LUN 18:00–20:00 of the overlap-detection test. -/
def ejA : Slot :=
  { materia := 1, codigo := "A", nombre := "Materia A", dia := "LUN",
    inicio := "18:00", fin := "20:00" }

/-- Example slot LUN 19:00–21:00 of the overlap-detection test. -/
def ejB : Slot :=
  { materia := 2, codigo := "B", nombre := "Materia B", dia := "LUN",
    inicio := "19:00", fin := "21:00" }

/-- A course meeting LUN 10:00–12:00. -/
def mLun : Materia :=
  { id := 1, codigo := "L", nombre := "Lunes", semestre := 1, creditos := 5,
    previas := [], horarios := [{ dia := "LUN", inicio := "10:00", fin := "12:00" }] }

/-- A course meeting MAR 10:00–12:00: same time range, different day. -/
def mMar : Materia :=
  { id := 2, codigo := "M", nombre := "Martes", semestre := 1, creditos := 5,
    previas := [], horarios := [{ dia := "MAR", inicio := "10:00", fin := "12:00" }] }

/-- A course with one 50-minute slot (0.8333… hours, rounded to 0.83). -/
def mH1 : Materia :=
  { id := 1, codigo := "H1", nombre := "Uno", semestre := 1, creditos := 5,
    previas := [], horarios := [{ dia := "LUN", inicio := "10:00", fin := "10:50" }] }

/-- A second course with one 50-minute slot on another day. -/
def mH2 : Materia :=
  { id := 2, codigo := "H2", nombre := "Dos", semestre := 1, creditos := 5,
    previas := [], horarios := [{ dia := "MAR", inicio := "10:00", fin := "10:50" }] }

/-- Fetch collaborator returning the two 50-minute courses. -/
def fetchC3 : List String → List Materia := fun _ => [mH1, mH2]

/-! ### Helper lemmas -/

/-- A previa contributes no motivo exactly when it is satisfied or its tipo
is neither "CURSO" nor "EXAMEN". -/
lemma motivoDePrevia_eq_nil (mapE : Nat → Option String) (p : Previa) :
    motivoDePrevia mapE p = [] ↔
      ((p.tipo = "CURSO" ∨ p.tipo = "EXAMEN") →
        cumplePrevia p.tipo (some (orPendiente (mapE p.materia.mid))) = true) := by
  by_cases hc : cumplePrevia p.tipo (some (orPendiente (mapE p.materia.mid))) = true
  · simp [motivoDePrevia, hc]
  · by_cases h1 : p.tipo = "CURSO"
    · simp [motivoDePrevia, hc, h1]
    · by_cases h2 : p.tipo = "EXAMEN"
      · simp [motivoDePrevia, hc, h1, h2]
      · simp [motivoDePrevia, hc, h1, h2]

/-- The previa loop pushes no motivo exactly when every "CURSO"/"EXAMEN"
previa is satisfied. -/
lemma motivosDePrevias_eq_nil (mapE : Nat → Option String) (ps : List Previa) :
    motivosDePrevias mapE ps = [] ↔
      ∀ p ∈ ps, (p.tipo = "CURSO" ∨ p.tipo = "EXAMEN") →
        cumplePrevia p.tipo (some (orPendiente (mapE p.materia.mid))) = true := by
  induction ps with
  | nil => simp [motivosDePrevias]
  | cons p ps ih =>
    simp [motivosDePrevias, List.append_eq_nil, motivoDePrevia_eq_nil, ih]

/-- Splitting a list by a predicate preserves the total length. -/
lemma length_filter_add_not {α : Type} (p : α → Bool) (l : List α) :
    (l.filter p).length + (l.filter (fun a => !p a)).length = l.length := by
  induction l with
  | nil => rfl
  | cons a l ih =>
    cases h : p a <;> simp [List.filter_cons, h, ← ih] <;> omega

/-- Skipping a later duplicate never changes the dedup loop, as long as the
element already occurs earlier or is already seen. -/
lemma setDedupGo_dup (x : String) :
    ∀ (l1 l2 seen : List String), x ∈ l1 ∨ x ∈ seen →
      setDedupGo (l1 ++ x :: l2) seen = setDedupGo (l1 ++ l2) seen := by
  intro l1
  induction l1 with
  | nil =>
    intro l2 seen h
    rcases h with h | h
    · simp at h
    · simp [setDedupGo, h]
  | cons a l1 ih =>
    intro l2 seen h
    by_cases ha : a ∈ seen
    · simp only [List.cons_append, setDedupGo, if_pos ha]
      apply ih
      rcases h with h | h
      · rcases List.mem_cons.mp h with rfl | h
        · exact Or.inr ha
        · exact Or.inl h
      · exact Or.inr h
    · simp only [List.cons_append, setDedupGo, if_neg ha]
      congr 1
      apply ih
      rcases h with h | h
      · rcases List.mem_cons.mp h with rfl | h
        · exact Or.inr (List.mem_cons_self _ _)
        · exact Or.inl h
      · exact Or.inr (List.mem_cons_of_mem _ h)

/-- Dedup `[...new Set(l)]` ignores a second occurrence of an element. -/
lemma setDedup_dup (xs ys zs : List String) (x : String) :
    setDedup (xs ++ x :: ys ++ x :: zs) = setDedup (xs ++ x :: ys ++ zs) := by
  have h := setDedupGo_dup x (xs ++ x :: ys) zs [] (Or.inl (by simp))
  simpa [setDedup, List.append_assoc] using h

/-- A filter by an everywhere-false predicate is empty. -/
lemma filter_eq_nil_of_false {α : Type} (p : α → Bool) (l : List α)
    (h : ∀ a ∈ l, p a = false) : l.filter p = [] := by
  induction l with
  | nil => rfl
  | cons a l ih =>
    simp [List.filter_cons, h a (List.mem_cons_self _ _),
      ih (fun b hb => h b (List.mem_cons_of_mem _ hb))]

/-- Once a slot starts at or after `A` ends, it cannot overlap `A`. -/
lemma overlapB_false_of_le (A B : Slot) (h : toMinutes A.fin ≤ toMinutes B.inicio) :
    overlapB A B = false := by
  simp only [overlapB, intervalsOverlap, decide_eq_false_iff_not, not_lt]
  calc min (toMinutes A.fin : ℤ) (toMinutes B.fin)
      ≤ (toMinutes A.fin : ℤ) := min_le_left _ _
    _ ≤ (toMinutes B.inicio : ℤ) := by exact_mod_cast h
    _ ≤ max (toMinutes A.inicio : ℤ) (toMinutes B.inicio) := le_max_right _ _

/-- When `B` starts no earlier than `A`, has positive duration and does not
overlap `A`, then `B` starts at or after `A` ends: the two non-overlap cases
of the inner scan coincide, so the early break is exactly the non-overlap
branch. -/
lemma le_of_not_overlap (A B : Slot) (hAB : keyLE A B)
    (hB : toMinutes B.inicio < toMinutes B.fin) (hov : overlapB A B = false) :
    toMinutes A.fin ≤ toMinutes B.inicio := by
  simp only [overlapB, intervalsOverlap, decide_eq_false_iff_not, not_lt] at hov
  have hmax : max ((toMinutes A.inicio : ℤ)) (toMinutes B.inicio)
      = (toMinutes B.inicio : ℤ) := max_eq_right (by exact_mod_cast hAB)
  rw [hmax] at hov
  rcases le_total ((toMinutes A.fin : ℤ)) ((toMinutes B.fin : ℤ)) with h | h
  · rw [min_eq_left h] at hov
    exact_mod_cast hov
  · rw [min_eq_right h] at hov
    have h2 : toMinutes B.fin ≤ toMinutes B.inicio := by exact_mod_cast hov
    omega

/-- On a sorted tail of valid slots the inner scan with the early break
computes the same conflicts as the full scan over every later slot. -/
lemma scanConflicts_eq (A : Slot) (rest : List Slot)
    (hs : List.Pairwise keyLE (A :: rest))
    (hv : ∀ B ∈ rest, toMinutes B.inicio < toMinutes B.fin) :
    scanConflicts A rest = scanAllPairs A rest := by
  induction rest with
  | nil => rfl
  | cons B rest ih =>
    rcases List.pairwise_cons.mp hs with ⟨hA, hBrest⟩
    rcases List.pairwise_cons.mp hBrest with ⟨hB, hrest⟩
    have hAB : keyLE A B := hA B (List.mem_cons_self _ _)
    have hs' : List.Pairwise keyLE (A :: rest) :=
      List.pairwise_cons.mpr ⟨fun b hb => hA b (List.mem_cons_of_mem _ hb), hrest⟩
    have hv' : ∀ C ∈ rest, toMinutes C.inicio < toMinutes C.fin :=
      fun C hC => hv C (List.mem_cons_of_mem _ hC)
    by_cases hov : overlapB A B
    · simp [scanConflicts, scanAllPairs, List.filter_cons, hov, ih hs' hv']
    · have hovf : overlapB A B = false := by
        revert hov; cases overlapB A B <;> simp
      have hle : toMinutes A.fin ≤ toMinutes B.inicio :=
        le_of_not_overlap A B hAB (hv B (List.mem_cons_self _ _)) hovf
      have hall : ∀ C ∈ rest, overlapB A C = false := fun C hC =>
        overlapB_false_of_le A C (le_trans hle (hB C hC))
      simp [scanConflicts, scanAllPairs, List.filter_cons, hovf, hle,
        filter_eq_nil_of_false _ _ hall]

/-- On a sorted list of valid slots the outer loop with the early break
computes the same conflicts as the full pairwise scan. -/
lemma conflictsFrom_eq (l : List Slot) (hs : List.Pairwise keyLE l)
    (hv : ∀ s ∈ l, toMinutes s.inicio < toMinutes s.fin) :
    conflictsFrom l = conflictsFromFull l := by
  induction l with
  | nil => rfl
  | cons A rest ih =>
    rcases List.pairwise_cons.mp hs with ⟨_, hrest⟩
    simp [conflictsFrom, conflictsFromFull,
      scanConflicts_eq A rest hs (fun B hB => hv B (List.mem_cons_of_mem _ hB)),
      ih hrest (fun s hsm => hv s (List.mem_cons_of_mem _ hsm))]

/-- The sort of `findDayConflicts` yields a list sorted by start time. -/
lemma pairwise_sortByStart (l : List Slot) : List.Pairwise keyLE (sortByStart l) :=
  List.sorted_insertionSort keyLE l

/-- The sort of `findDayConflicts` preserves membership. -/
lemma mem_sortByStart {s : Slot} {l : List Slot} : s ∈ sortByStart l ↔ s ∈ l :=
  (List.perm_insertionSort keyLE l).mem_iff

/-- Every record produced by the inner scan comes from a later slot that
overlaps `A`. -/
lemma mem_scanConflicts {c : Conflict} {A : Slot} : ∀ {rest : List Slot},
    c ∈ scanConflicts A rest → ∃ B ∈ rest, overlapB A B = true ∧ c = conflictOf A B := by
  intro rest
  induction rest with
  | nil => intro h; simp [scanConflicts] at h
  | cons B rest ih =>
    intro h
    by_cases hov : overlapB A B
    · rw [scanConflicts, if_pos hov] at h
      rcases List.mem_cons.mp h with rfl | h
      · exact ⟨B, List.mem_cons_self _ _, hov, rfl⟩
      · obtain ⟨B', hB', hov', hc⟩ := ih h
        exact ⟨B', List.mem_cons_of_mem _ hB', hov', hc⟩
    · by_cases hbr : toMinutes A.fin ≤ toMinutes B.inicio
      · rw [scanConflicts, if_neg hov, if_pos hbr] at h
        simp at h
      · rw [scanConflicts, if_neg hov, if_neg hbr] at h
        obtain ⟨B', hB', hov', hc⟩ := ih h
        exact ⟨B', List.mem_cons_of_mem _ hB', hov', hc⟩

/-- Every record produced by the outer loop is the conflict record of two
slots of the list. -/
lemma mem_conflictsFrom {c : Conflict} : ∀ {l : List Slot},
    c ∈ conflictsFrom l → ∃ A ∈ l, ∃ B ∈ l, overlapB A B = true ∧ c = conflictOf A B := by
  intro l
  induction l with
  | nil => intro h; simp [conflictsFrom] at h
  | cons A rest ih =>
    intro h
    rw [conflictsFrom, List.mem_append] at h
    rcases h with h | h
    · obtain ⟨B, hB, hov, hc⟩ := mem_scanConflicts h
      exact ⟨A, List.mem_cons_self _ _, B, List.mem_cons_of_mem _ hB, hov, hc⟩
    · obtain ⟨A', hA', B, hB, hov, hc⟩ := ih h
      exact ⟨A', List.mem_cons_of_mem _ hA', B, List.mem_cons_of_mem _ hB, hov, hc⟩

/-- Every record of the per-day loop comes from the bucket of one of the
listed days. -/
lemma mem_conflictosPorDia {c : Conflict} (slots : List Slot) :
    ∀ ds : List String, c ∈ conflictosPorDia slots ds →
      ∃ d ∈ ds, c ∈ findDayConflicts (slots.filter (fun s => s.dia == d)) := by
  intro ds
  induction ds with
  | nil => intro h; simp [conflictosPorDia] at h
  | cons d ds ih =>
    intro h
    rw [conflictosPorDia, List.mem_append] at h
    rcases h with h | h
    · exact ⟨d, List.mem_cons_self _ _, h⟩
    · obtain ⟨d', hd', hc⟩ := ih h
      exact ⟨d', List.mem_cons_of_mem _ hd', hc⟩

/-! ### Claims -/

/-- C5: `intervalsOverlap` is true iff `max(startA,startB) < min(endA,endB)`
(half-open semantics), and the adjacent intervals 9:00–10:00 and 10:00–11:00
(in minutes) do not overlap. -/
theorem C5_intervalsOverlap_spec :
    (∀ aInicio aFin bInicio bFin : ℤ,
      intervalsOverlap aInicio aFin bInicio bFin = true ↔
        max aInicio bInicio < min aFin bFin)
    ∧ intervalsOverlap (9*60) (10*60) (10*60) (11*60) = false := by
  refine ⟨fun a b c d => ?_, by decide⟩
  simp [intervalsOverlap]

/-- C7: the persisted history enum contains `A_EXAMEN`, the evaluator's
`LEVEL` map does not, so `A_EXAMEN` gets ordinal 0 like `PENDIENTE` and
satisfies neither a `CURSO` nor an `EXAMEN` prerequisite. -/
theorem C7_aExamen_ordinal :
    "A_EXAMEN" ∈ HistorialEstados ∧
    LEVEL "A_EXAMEN" = none ∧
    nivelDe (some "A_EXAMEN") = 0 ∧ nivelDe (some "PENDIENTE") = 0 ∧
    cumplePrevia "CURSO" (some "A_EXAMEN") = false ∧
    cumplePrevia "EXAMEN" (some "A_EXAMEN") = false := by decide

/-- C4: `cumplePrevia` satisfies a `CURSO` previa iff the status ordinal is
at least the ordinal of `CURSADO`, an `EXAMEN` previa iff it is at least the
ordinal of `APROBADO`, returns false for any other kind, and a missing
status has ordinal 0 (like `PENDIENTE`) and satisfies nothing. -/
theorem C4_cumplePrevia_spec :
    ∀ (tipo : String) (estado : Option String),
      cumplePrevia "CURSO" estado = decide (nivelDe (some "CURSADO") ≤ nivelDe estado)
      ∧ cumplePrevia "EXAMEN" estado = decide (nivelDe (some "APROBADO") ≤ nivelDe estado)
      ∧ (tipo ≠ "CURSO" ∧ tipo ≠ "EXAMEN" → cumplePrevia tipo estado = false)
      ∧ nivelDe none = 0 ∧ nivelDe none = nivelDe (some "PENDIENTE")
      ∧ cumplePrevia tipo none = false := by
  intro tipo estado
  refine ⟨rfl, rfl, ?_, rfl, rfl, ?_⟩
  · rintro ⟨h1, h2⟩
    simp only [cumplePrevia]
    rw [if_neg h1, if_neg h2]
  · by_cases h1 : tipo = "CURSO"
    · subst h1; decide
    · by_cases h2 : tipo = "EXAMEN"
      · subst h2; decide
      · simp only [cumplePrevia]
        rw [if_neg h1, if_neg h2]

/-- C1 counterexample: a course with no prerequisites (so every prerequisite
is vacuously satisfied) whose own status is APROBADO comes back with
`elegible = false` — the "already approved" reason is pushed into `motivos`
and `elegible` is defined as `motivos` being empty, so it does block. -/
theorem C1_counterexample :
    mC1.previas = [] ∧
    (evaluarMateria mC1 mapC1).estadoActual = "APROBADO" ∧
    (evaluarMateria mC1 mapC1).motivos = ["La materia ya está APROBADA."] ∧
    (evaluarMateria mC1 mapC1).elegible = false := by decide

/-- C1 (amended): the student's own APROBADO status on the course appends
the informational reason to `motivos` and, because `elegible` is defined as
`motivos.length === 0`, it does by itself make the course ineligible:
the result is eligible iff the student's status on the course is not
APROBADO and every CURSO/EXAMEN prerequisite is satisfied. -/
theorem C1_elegible_iff (m : Materia) (mapE : Nat → Option String) :
    ((evaluarMateria m mapE).elegible = true ↔
      (orPendiente (mapE m.id) ≠ "APROBADO" ∧
       ∀ p ∈ m.previas, (p.tipo = "CURSO" ∨ p.tipo = "EXAMEN") →
         cumplePrevia p.tipo (some (orPendiente (mapE p.materia.mid))) = true))
    ∧ (orPendiente (mapE m.id) = "APROBADO" →
        "La materia ya está APROBADA." ∈ (evaluarMateria m mapE).motivos ∧
        (evaluarMateria m mapE).elegible = false) := by
  have helg : (evaluarMateria m mapE).elegible =
      (((if orPendiente (mapE m.id) = "APROBADO"
          then ["La materia ya está APROBADA."] else []) ++
        motivosDePrevias mapE m.previas).length == 0) := rfl
  have hmot : (evaluarMateria m mapE).motivos =
      ((if orPendiente (mapE m.id) = "APROBADO"
          then ["La materia ya está APROBADA."] else []) ++
        motivosDePrevias mapE m.previas) := rfl
  constructor
  · rw [helg]
    by_cases ha : orPendiente (mapE m.id) = "APROBADO"
    · simp [ha]
    · simp [ha, motivosDePrevias_eq_nil]
  · intro ha
    rw [hmot, helg]
    simp [ha]

/-- C8: a candidate list with a valid identifier occurring twice produces
exactly the same report as the list with that identifier occurring once:
identifiers are deduplicated before the fetch, so every part of the report
is unchanged. -/
theorem C8_dedup (isValidId : String → Bool) (fetch : List String → List Materia)
    (mapE : Nat → Option String) (usuarioId : String)
    (xs ys zs : List String) (x : String) (_hx : isValidId x = true) :
    verificarSeleccion isValidId fetch mapE (xs ++ x :: ys ++ x :: zs) usuarioId
      = verificarSeleccion isValidId fetch mapE (xs ++ x :: ys ++ zs) usuarioId := by
  have h1 : (xs ++ x :: ys ++ x :: zs).isEmpty = false := by
    cases xs <;> simp [List.isEmpty]
  have h2 : (xs ++ x :: ys ++ zs).isEmpty = false := by
    cases xs <;> simp [List.isEmpty]
  simp only [verificarSeleccion, h1, h2, setDedup_dup xs ys zs x]

/-- C8 witness: the selection `["a", "a"]` behaves as `["a"]`. -/
theorem C8_dedup_witness :
    verificarSeleccion (fun _ => true) (fun _ => []) (fun _ => none)
        ([] ++ "a" :: [] ++ "a" :: []) "u"
      = verificarSeleccion (fun _ => true) (fun _ => []) (fun _ => none)
        ([] ++ "a" :: [] ++ []) "u" :=
  C8_dedup (fun _ => true) (fun _ => []) (fun _ => none) "u" [] [] [] "a" rfl

/-- C6: in the summaries of both entry points the eligible and ineligible
counts add up to the number of evaluated items: `elegibles + noElegibles =
totalMaterias` in `calcularElegibilidad` (which is `items.length`), and
`elegibles + noElegibles = seleccionadas` in `verificarSeleccion` (which is
`materias.length`). -/
theorem C6_count_invariant :
    ∀ (isValidId : String → Bool) (usuarioId : String) (mapE : Nat → Option String)
      (materias : List Materia) (fetch : List String → List Materia)
      (materiaIds : List String),
      ((calcularElegibilidad isValidId usuarioId mapE materias).toOption.map
          (fun r => r.resumen.elegibles + r.resumen.noElegibles)
        = (calcularElegibilidad isValidId usuarioId mapE materias).toOption.map
          (fun r => r.resumen.totalMaterias))
      ∧ ((calcularElegibilidad isValidId usuarioId mapE materias).toOption.map
          (fun r => r.resumen.totalMaterias)
        = (calcularElegibilidad isValidId usuarioId mapE materias).toOption.map
          (fun r => r.items.length))
      ∧ ((verificarSeleccion isValidId fetch mapE materiaIds usuarioId).toOption.map
          (fun r => r.resumen.elegibles + r.resumen.noElegibles)
        = (verificarSeleccion isValidId fetch mapE materiaIds usuarioId).toOption.map
          (fun r => r.resumen.seleccionadas))
      ∧ ((verificarSeleccion isValidId fetch mapE materiaIds usuarioId).toOption.map
          (fun r => r.resumen.seleccionadas)
        = (verificarSeleccion isValidId fetch mapE materiaIds usuarioId).toOption.map
          (fun r => r.materias.length)) := by
  intro isValidId usuarioId mapE materias fetch materiaIds
  refine ⟨?_, ?_, ?_, ?_⟩
  · by_cases hv : isValidId usuarioId
    · simp [calcularElegibilidad, hv, Except.toOption, length_filter_add_not]
    · simp [calcularElegibilidad, hv, Except.toOption]
  · by_cases hv : isValidId usuarioId
    · simp [calcularElegibilidad, hv, Except.toOption]
    · simp [calcularElegibilidad, hv, Except.toOption]
  · by_cases h0 : materiaIds.isEmpty
    · simp [verificarSeleccion, h0, Except.toOption]
    · by_cases hv : isValidId usuarioId
      · by_cases hids : ((setDedup materiaIds).filter isValidId).isEmpty
        · simp [verificarSeleccion, h0, hv, hids, Except.toOption]
        · have hle := List.length_filter_le (fun x : Detallada => x.elegible)
            ((fetch ((setDedup materiaIds).filter isValidId)).map (detalladaDe mapE))
          simp [verificarSeleccion, h0, hv, hids, Except.toOption]
          simp at hle
          omega
      · simp [verificarSeleccion, h0, hv, Except.toOption]
  · by_cases h0 : materiaIds.isEmpty
    · simp [verificarSeleccion, h0, Except.toOption]
    · by_cases hv : isValidId usuarioId
      · by_cases hids : ((setDedup materiaIds).filter isValidId).isEmpty
        · simp [verificarSeleccion, h0, hv, hids, Except.toOption]
        · simp [verificarSeleccion, h0, hv, hids, Except.toOption]
      · simp [verificarSeleccion, h0, hv, Except.toOption]

/-- C9: `verificarSeleccion` fails exactly when the candidate list is empty,
the user identifier is invalid, or no valid identifier remains after
deduplication and filtering; `calcularElegibilidad` fails exactly when the
user identifier is invalid; and whether `verificarSeleccion` fails does not
depend on the fetch collaborator (the checks run before the fetch). -/
theorem C9_error_conditions :
    ∀ (isValidId : String → Bool) (fetch : List String → List Materia)
      (mapE : Nat → Option String) (materiaIds : List String) (usuarioId : String)
      (materias : List Materia),
      ((∃ e, verificarSeleccion isValidId fetch mapE materiaIds usuarioId = .error e) ↔
        (materiaIds = [] ∨ isValidId usuarioId = false ∨
          (setDedup materiaIds).filter isValidId = []))
      ∧ ((∃ e, calcularElegibilidad isValidId usuarioId mapE materias = .error e) ↔
          isValidId usuarioId = false)
      ∧ (∀ fetch2,
          ((∃ e, verificarSeleccion isValidId fetch2 mapE materiaIds usuarioId = .error e) ↔
           (∃ e, verificarSeleccion isValidId fetch mapE materiaIds usuarioId = .error e))) := by
  intro isValidId fetch mapE materiaIds usuarioId materias
  have main : ∀ f : List String → List Materia,
      ((∃ e, verificarSeleccion isValidId f mapE materiaIds usuarioId = .error e) ↔
        (materiaIds = [] ∨ isValidId usuarioId = false ∨
          (setDedup materiaIds).filter isValidId = [])) := by
    intro f
    by_cases h0 : materiaIds.isEmpty
    · have h0' : materiaIds = [] := by simpa using h0
      simp [verificarSeleccion, h0, h0']
    · have h0' : ¬ materiaIds = [] := by simpa using h0
      by_cases hv : isValidId usuarioId
      · by_cases hids : ((setDedup materiaIds).filter isValidId).isEmpty
        · have hids' : (setDedup materiaIds).filter isValidId = [] := by simpa using hids
          simp [verificarSeleccion, h0, hv, hids, h0', hids']
        · have hids' : ¬ (setDedup materiaIds).filter isValidId = [] := by simpa using hids
          simp [verificarSeleccion, h0, hv, hids, h0', hids', hv]
      · simp [verificarSeleccion, h0, hv, h0']
  refine ⟨main fetch, ?_, fun fetch2 => (main fetch2).trans (main fetch).symm⟩
  by_cases hv : isValidId usuarioId
  · simp [calcularElegibilidad, hv]
  · simp [calcularElegibilidad, hv]

/-- C2: on same-day slots with valid HH:MM times and start < end,
`findDayConflicts` computes exactly the full pairwise scan (the early break
loses no overlapping pair and adds nothing), each emitted record carries
`solapeMinutos = min(ends) − max(starts)` and the `HH:MM–HH:MM` rendering of
that window, and the slots 18:00–20:00 and 19:00–21:00 yield exactly one
conflict with `solapeMinutos = 60` and `solape = "19:00–20:00"`. -/
theorem C2_findDayConflicts_spec (L : List Slot)
    (h : ∀ s ∈ L, isHHMM s.inicio = true ∧ isHHMM s.fin = true ∧
          toMinutes s.inicio < toMinutes s.fin) :
    findDayConflicts L = findDayConflictsFull L
    ∧ (∀ c ∈ findDayConflicts L,
        c.solapeMinutos =
          min (toMinutes c.a.fin) (toMinutes c.b.fin) -
            max (toMinutes c.a.inicio) (toMinutes c.b.inicio)
        ∧ c.solape =
            toHHMM (max (toMinutes c.a.inicio) (toMinutes c.b.inicio)) ++ "–" ++
              toHHMM (min (toMinutes c.a.fin) (toMinutes c.b.fin))
        ∧ intervalsOverlap (toMinutes c.a.inicio) (toMinutes c.a.fin)
            (toMinutes c.b.inicio) (toMinutes c.b.fin) = true)
    ∧ (findDayConflicts [ejA, ejB] = [conflictOf ejA ejB]
        ∧ (conflictOf ejA ejB).solapeMinutos = 60
        ∧ (conflictOf ejA ejB).solape = "19:00–20:00") := by
  refine ⟨?_, ?_, by decide⟩
  · rw [findDayConflicts, findDayConflictsFull]
    exact conflictsFrom_eq _ (pairwise_sortByStart L)
      (fun s hs => (h s (mem_sortByStart.mp hs)).2.2)
  · intro c hc
    rw [findDayConflicts] at hc
    obtain ⟨A, _, B, _, hov, rfl⟩ := mem_conflictsFrom hc
    exact ⟨rfl, rfl, hov⟩

/-- C2 witness: the specification instantiated on the two-slot example. -/
theorem C2_findDayConflicts_spec_witness :
    findDayConflicts [ejA, ejB] = findDayConflictsFull [ejA, ejB]
    ∧ (∀ c ∈ findDayConflicts [ejA, ejB],
        c.solapeMinutos =
          min (toMinutes c.a.fin) (toMinutes c.b.fin) -
            max (toMinutes c.a.inicio) (toMinutes c.b.inicio)
        ∧ c.solape =
            toHHMM (max (toMinutes c.a.inicio) (toMinutes c.b.inicio)) ++ "–" ++
              toHHMM (min (toMinutes c.a.fin) (toMinutes c.b.fin))
        ∧ intervalsOverlap (toMinutes c.a.inicio) (toMinutes c.a.fin)
            (toMinutes c.b.inicio) (toMinutes c.b.fin) = true)
    ∧ (findDayConflicts [ejA, ejB] = [conflictOf ejA ejB]
        ∧ (conflictOf ejA ejB).solapeMinutos = 60
        ∧ (conflictOf ejA ejB).solape = "19:00–20:00") :=
  C2_findDayConflicts_spec [ejA, ejB] (by decide)

/-- C10: every conflict of the selection report relates two slots of the
same day (slots are bucketed by day first), the report's conflict list is
exactly the per-day pipeline over its own materias, and two identical time
ranges on different days produce no conflict. -/
theorem C10_same_day :
    (∀ (dets : List Detallada) (c : Conflict),
      c ∈ conflictosPorDia (allSlots dets) (diasDe (allSlots dets)) →
      ∃ A, ∃ B, A ∈ allSlots dets ∧ B ∈ allSlots dets ∧
        A.dia = c.dia ∧ B.dia = c.dia ∧ c = conflictOf A B)
    ∧ (∀ (isValidId : String → Bool) (fetch : List String → List Materia)
        (mapE : Nat → Option String) (materiaIds : List String) (usuarioId : String),
        (verificarSeleccion isValidId fetch mapE materiaIds usuarioId).toOption.map
            (fun r => r.conflictos)
          = (verificarSeleccion isValidId fetch mapE materiaIds usuarioId).toOption.map
            (fun r => conflictosPorDia (allSlots r.materias) (diasDe (allSlots r.materias))))
    ∧ (verificarSeleccion (fun _ => true) (fun _ => [mLun, mMar]) (fun _ => none)
        ["x", "y"] "u").toOption.map (fun r => r.conflictos) = some [] := by
  refine ⟨?_, ?_, by decide⟩
  · intro dets c hc
    obtain ⟨d, _, hcd⟩ := mem_conflictosPorDia _ _ hc
    rw [findDayConflicts] at hcd
    obtain ⟨A, hA, B, hB, _, rfl⟩ := mem_conflictsFrom hcd
    rw [mem_sortByStart, List.mem_filter] at hA hB
    have hAd : A.dia = d := by simpa using hA.2
    have hBd : B.dia = d := by simpa using hB.2
    exact ⟨A, B, hA.1, hB.1, rfl, hBd.trans hAd.symm, rfl⟩
  · intro isValidId fetch mapE materiaIds usuarioId
    by_cases h0 : materiaIds.isEmpty
    · simp [verificarSeleccion, h0, Except.toOption]
    · by_cases hv : isValidId usuarioId
      · by_cases hids : ((setDedup materiaIds).filter isValidId).isEmpty
        · simp [verificarSeleccion, h0, hv, hids, Except.toOption]
        · simp [verificarSeleccion, h0, hv, hids, Except.toOption]
      · simp [verificarSeleccion, h0, hv, Except.toOption]

/-- C3 counterexample: for two courses of one 50-minute slot each, the
reported `cargaHoras` is 1.66 (each course's hours are rounded to 0.83
first, then summed and re-rounded), while rounding the simple sum of raw
minutes (100 minutes) once gives 1.67. -/
theorem C3_counterexample :
    (verificarSeleccion (fun _ => true) fetchC3 (fun _ => none) ["a", "b"] "u").toOption.map
        (fun r => r.resumen.cargaHoras) = some (166/100)
    ∧ horasDesdeHorarios (mH1.horarios ++ mH2.horarios) = 167/100
    ∧ (166/100 : ℚ) ≠ 167/100 := by
  have h1 : horasDesdeHorarios mH1.horarios = 83/100 := by
    have ht : totalMins mH1.horarios = 50 := by decide
    rw [horasDesdeHorarios, ht]
    norm_num [jsRound]
  have h2 : horasDesdeHorarios mH2.horarios = 83/100 := by
    have ht : totalMins mH2.horarios = 50 := by decide
    rw [horasDesdeHorarios, ht]
    norm_num [jsRound]
  have hrep : verificarSeleccion (fun _ => true) fetchC3 (fun _ => none) ["a", "b"] "u"
      = .ok { resumen :=
                { seleccionadas := 2, elegibles := 2, noElegibles := 0, conflictos := 0,
                  cargaHoras :=
                    (jsRound (((0 + horasDesdeHorarios mH1.horarios)
                        + horasDesdeHorarios mH2.horarios) * 100) : ℚ) / 100 },
              conflictos := [],
              materias := [detalladaDe (fun _ => none) mH1,
                           detalladaDe (fun _ => none) mH2] } := rfl
  refine ⟨?_, ?_, by norm_num⟩
  · rw [hrep]
    simp only [Except.toOption, Option.map]
    rw [h1, h2]
    norm_num [jsRound]
  · have ht : totalMins (mH1.horarios ++ mH2.horarios) = 100 := by decide
    rw [horasDesdeHorarios, ht]
    norm_num [jsRound]

/-- C3 (amended): the reported `cargaHoras` is the two-decimal rounding of
the sum of the per-course `cargaHorasMateria` values, each of which is
itself `horasDesdeHorarios` of that course's slots (already rounded to two
decimals); the raw minute total is not re-rounded as a whole, so overlapping
time is not subtracted but per-course roundings accumulate. -/
theorem C3_cargaHoras_amended :
    ∀ (isValidId : String → Bool) (fetch : List String → List Materia)
      (mapE : Nat → Option String) (materiaIds : List String) (usuarioId : String),
      ((verificarSeleccion isValidId fetch mapE materiaIds usuarioId).toOption.map
          (fun r => r.resumen.cargaHoras)
        = (verificarSeleccion isValidId fetch mapE materiaIds usuarioId).toOption.map
          (fun r => (jsRound ((r.materias.foldl
              (fun acc x => acc + x.cargaHorasMateria) 0) * 100) : ℚ) / 100))
      ∧ ((verificarSeleccion isValidId fetch mapE materiaIds usuarioId).toOption.map
          (fun r => r.materias.map (fun d => d.cargaHorasMateria))
        = (verificarSeleccion isValidId fetch mapE materiaIds usuarioId).toOption.map
          (fun r => r.materias.map (fun d => horasDesdeHorarios d.horarios))) := by
  intro isValidId fetch mapE materiaIds usuarioId
  constructor
  · by_cases h0 : materiaIds.isEmpty
    · simp [verificarSeleccion, h0, Except.toOption]
    · by_cases hv : isValidId usuarioId
      · by_cases hids : ((setDedup materiaIds).filter isValidId).isEmpty
        · simp [verificarSeleccion, h0, hv, hids, Except.toOption]
        · simp [verificarSeleccion, h0, hv, hids, Except.toOption]
      · simp [verificarSeleccion, h0, hv, Except.toOption]
  · by_cases h0 : materiaIds.isEmpty
    · simp [verificarSeleccion, h0, Except.toOption]
    · by_cases hv : isValidId usuarioId
      · by_cases hids : ((setDedup materiaIds).filter isValidId).isEmpty
        · simp [verificarSeleccion, h0, hv, hids, Except.toOption]
        · simp only [verificarSeleccion, h0, hv, hids, Except.toOption]
          simp [List.map_map]
          intro a _
          rfl
      · simp [verificarSeleccion, h0, hv, Except.toOption]

end Tarea
